import Mathlib

/-!
Shallow embedding of `src/blockchain.rs` (a small proof-of-work ledger):
the block data model, the SHA-256 based `calculate_hash`, the miner
`mine_block`, the validators `check_block_is_valid` / `check_chain_is_valid`,
the fork-choice `choose_chain`, and the ledger operations of `App`.

Machine integers are modelled as `Nat` (with explicit `% 2^32` where the Rust
`u32` addition can wrap) and `Int` for the `i64` timestamp.  Rust panics are
modelled as `none` of an `Option` result.
-/

namespace RustChain

/- ---------------------------------------------------------------------
SHA-256 over byte lists (`Vec<u8>` in the source), bytes and 32-bit words
as `Nat` with explicit reduction mod 2^32.
--------------------------------------------------------------------- -/

/-- Truncate to a 32-bit word (`Nat % 2^32` keeps the low 32 bits). -/
def w32 (n : Nat) : Nat := n % 4294967296

/-- 32-bit modular addition. -/
def wadd (a b : Nat) : Nat := (a + b) % 4294967296

/-- Rotate a 32-bit word right by `n` bits. -/
def rotr (n x : Nat) : Nat := ((x >>> n) ||| (x <<< (32 - n))) % 4294967296

/-- SHA-256 `Ch` function. -/
def ch (x y z : Nat) : Nat := (x &&& y) ^^^ ((x ^^^ 4294967295) &&& z)

/-- SHA-256 `Maj` function. -/
def maj (x y z : Nat) : Nat := (x &&& y) ^^^ (x &&& z) ^^^ (y &&& z)

/-- SHA-256 `Σ₀`. -/
def bigSigma0 (x : Nat) : Nat := rotr 2 x ^^^ rotr 13 x ^^^ rotr 22 x

/-- SHA-256 `Σ₁`. -/
def bigSigma1 (x : Nat) : Nat := rotr 6 x ^^^ rotr 11 x ^^^ rotr 25 x

/-- SHA-256 `σ₀`. -/
def smallSigma0 (x : Nat) : Nat := rotr 7 x ^^^ rotr 18 x ^^^ (x >>> 3)

/-- SHA-256 `σ₁`. -/
def smallSigma1 (x : Nat) : Nat := rotr 17 x ^^^ rotr 19 x ^^^ (x >>> 10)

/-- Round-constant table of SHA-256, 64 entries as decimal `Nat` words. -/
def sha256K : List Nat :=
  [1116352408, 1899447441, 3049323471, 3921009573, 961987163, 1508970993,
   2453635748, 2870763221, 3624381080, 310598401, 607225278, 1426881987,
   1925078388, 2162078206, 2614888103, 3248222580, 3835390401, 4022224774,
   264347078, 604807628, 770255983, 1249150122, 1555081692, 1996064986,
   2554220882, 2821834349, 2952996808, 3210313671, 3336571891, 3584528711,
   113926993, 338241895, 666307205, 773529912, 1294757372, 1396182291,
   1695183700, 1986661051, 2177026350, 2456956037, 2730485921, 2820302411,
   3259730800, 3345764771, 3516065817, 3600352804, 4094571909, 275423344,
   430227734, 506948616, 659060556, 883997877, 958139571, 1322822218,
   1537002063, 1747873779, 1955562222, 2024104815, 2227730452, 2361852424,
   2428436474, 2756734187, 3204031479, 3329325298]

/-- The eight 32-bit working registers of the SHA-256 compression function. -/
structure Hash8 where
  a : Nat
  b : Nat
  c : Nat
  d : Nat
  e : Nat
  f : Nat
  g : Nat
  h : Nat

/-- Starting register values of SHA-256. -/
def sha256H0 : Hash8 :=
  ⟨1779033703, 3144134277, 1013904242, 2773480762,
   1359893119, 2600822924, 528734635, 1541459225⟩

/-- A 64-bit big-endian length field, as 8 bytes. -/
def be64 (n : Nat) : List Nat :=
  [(n >>> 56) % 256, (n >>> 48) % 256, (n >>> 40) % 256, (n >>> 32) % 256,
   (n >>> 24) % 256, (n >>> 16) % 256, (n >>> 8) % 256, n % 256]

/-- A 32-bit word as 4 big-endian bytes. -/
def be32 (n : Nat) : List Nat :=
  [(n >>> 24) % 256, (n >>> 16) % 256, (n >>> 8) % 256, n % 256]

/-- SHA-256 padding: append `0x80`, zero bytes up to 56 mod 64, then the
bit length as a 64-bit big-endian integer. -/
def sha256Pad (msg : List Nat) : List Nat :=
  msg ++ [128] ++ List.replicate ((64 + 56 - ((msg.length + 1) % 64)) % 64) 0
      ++ be64 (msg.length * 8)

/-- Split a byte list into 64-byte blocks; the fuel argument bounds the
number of recursion steps so the recursion is structural (`l.length` steps
always suffice, since each step consumes at least one byte). -/
def toBlocksAux : Nat → List Nat → List (List Nat)
  | 0, _ => []
  | _ + 1, [] => []
  | fuel + 1, x :: xs =>
      (x :: xs).take 64 :: toBlocksAux fuel ((x :: xs).drop 64)

/-- Split a byte list into 64-byte blocks. -/
def toBlocks (l : List Nat) : List (List Nat) :=
  toBlocksAux l.length l

/-- Big-endian 32-bit words from bytes, 4 bytes per word. -/
def bytesToWords : List Nat → List Nat
  | b0 :: b1 :: b2 :: b3 :: rest =>
      ((b0 <<< 24) + (b1 <<< 16) + (b2 <<< 8) + b3) :: bytesToWords rest
  | _ => []

/-- Extend the 16-word message schedule by `n` further words. -/
def extendWords (acc : List Nat) : Nat → List Nat
  | 0 => acc
  | n + 1 =>
      let i := acc.length
      let s0 := smallSigma0 (acc.getD (i - 15) 0)
      let s1 := smallSigma1 (acc.getD (i - 2) 0)
      extendWords
        (acc ++ [wadd (wadd (acc.getD (i - 16) 0) s0) (wadd (acc.getD (i - 7) 0) s1)]) n

/-- One SHA-256 compression round. -/
def sha256Round (ws : List Nat) (st : Hash8) (i : Nat) : Hash8 :=
  let t1 := wadd st.h (wadd (bigSigma1 st.e)
      (wadd (ch st.e st.f st.g) (wadd (sha256K.getD i 0) (ws.getD i 0))))
  let t2 := wadd (bigSigma0 st.a) (maj st.a st.b st.c)
  ⟨wadd t1 t2, st.a, st.b, st.c, wadd st.d t1, st.e, st.f, st.g⟩

/-- Process one 64-byte block of the padded message. -/
def sha256Block (st : Hash8) (block : List Nat) : Hash8 :=
  let ws := extendWords (bytesToWords block) 48
  let r := (List.range 64).foldl (sha256Round ws) st
  ⟨wadd st.a r.a, wadd st.b r.b, wadd st.c r.c, wadd st.d r.d,
   wadd st.e r.e, wadd st.f r.f, wadd st.g r.g, wadd st.h r.h⟩

/-- Serialize the final state as the 32-byte digest. -/
def digestBytes (st : Hash8) : List Nat :=
  be32 st.a ++ be32 st.b ++ be32 st.c ++ be32 st.d
    ++ be32 st.e ++ be32 st.f ++ be32 st.g ++ be32 st.h

/-- SHA-256 of a byte list, as the 32-byte digest (`Sha256::digest`). -/
def sha256 (msg : List Nat) : List Nat :=
  digestBytes ((toBlocks (sha256Pad msg)).foldl sha256Block sha256H0)

/- ---------------------------------------------------------------------
UTF-8, hex encoding and the serde_json serialization used as hash input.
--------------------------------------------------------------------- -/

/-- UTF-8 encoding of one character, as bytes. -/
def charUtf8 (c : Char) : List Nat :=
  let n := c.toNat
  if n < 128 then [n]
  else if n < 2048 then [192 ||| (n >>> 6), 128 ||| (n &&& 63)]
  else if n < 65536 then
    [224 ||| (n >>> 12), 128 ||| ((n >>> 6) &&& 63), 128 ||| (n &&& 63)]
  else
    [240 ||| (n >>> 18), 128 ||| ((n >>> 12) &&& 63),
     128 ||| ((n >>> 6) &&& 63), 128 ||| (n &&& 63)]

/-- UTF-8 bytes of a string (`str::as_bytes`). -/
def utf8Bytes (s : String) : List Nat := s.toList.flatMap charUtf8

/-- Lowercase hex digit for a nibble. -/
def hexDigit (n : Nat) : Char :=
  if n < 10 then Char.ofNat (48 + n) else Char.ofNat (87 + n)

/-- The character list of the lowercase hex encoding of a byte list. -/
def hexChars (l : List Nat) : List Char :=
  (l.map (fun b => [hexDigit (b / 16), hexDigit (b % 16)])).flatten

/-- Lowercase hex encoding of a byte list (`hex::encode`). -/
def hexEncode (l : List Nat) : String :=
  String.mk (hexChars l)

/-- serde_json escaping of one character inside a JSON string literal. -/
def jsonEscapeChar (c : Char) : String :=
  if c = Char.ofNat 34 then "\\\""
  else if c = Char.ofNat 92 then "\\\\"
  else if c = Char.ofNat 8 then "\\b"
  else if c = Char.ofNat 9 then "\\t"
  else if c = Char.ofNat 10 then "\\n"
  else if c = Char.ofNat 12 then "\\f"
  else if c = Char.ofNat 13 then "\\r"
  else if c.toNat < 32 then
    "\\u00" ++ String.mk [hexDigit (c.toNat / 16), hexDigit (c.toNat % 16)]
  else String.mk [c]

/-- A JSON string literal as serde_json prints it. -/
def jsonString (s : String) : String :=
  "\"" ++ String.join (s.toList.map jsonEscapeChar) ++ "\""

/- ---------------------------------------------------------------------
Data model of `blockchain.rs`.
--------------------------------------------------------------------- -/

/-- `const DIFFICULTY: &str = "00";` -/
def DIFFICULTY : String := "00"

/-- `struct Transaction {}` — no fields; serde serializes it as `\x7b\x7d`. -/
structure Transaction where
deriving DecidableEq

/-- `struct Block` — `id: u32`, `timestamp: i64`, `header: String`,
`prev_hash: String`, `transactions: Vec<Transaction>`, `nonce: u64`. -/
structure Block where
  id : Nat
  timestamp : Int
  header : String
  prev_hash : String
  transactions : List Transaction
  nonce : Nat
deriving DecidableEq

/-- `struct App { blocks: Vec<Block> }` -/
structure App where
  blocks : List Block
deriving DecidableEq

/-- Serialization of a `Vec<Transaction>`: each empty struct prints as
`\x7b\x7d`, the vector as a JSON array. -/
def transactionsJson (txs : List Transaction) : String :=
  "[" ++ String.intercalate "," (txs.map (fun _ => "\x7b\x7d")) ++ "]"

/-- The exact string `serde_json::json!(...).to_string()` produces in
`calculate_hash`: compact JSON, keys in serde_json's default `BTreeMap`
(alphabetical) order — id, nonce, prev_hash, timestamp, transactions. -/
def hashInput (id : Nat) (timestamp : Int) (prev_hash : String)
    (transactions : List Transaction) (nonce : Nat) : String :=
  "\x7b\"id\":" ++ toString id
    ++ ",\"nonce\":" ++ toString nonce
    ++ ",\"prev_hash\":" ++ jsonString prev_hash
    ++ ",\"timestamp\":" ++ toString timestamp
    ++ ",\"transactions\":" ++ transactionsJson transactions ++ "\x7d"

/-- `calculate_hash`: SHA-256 of the canonical JSON serialization, as the
32-byte digest (`Vec<u8>`). -/
def calculate_hash (id : Nat) (timestamp : Int) (prev_hash : String)
    (transactions : List Transaction) (nonce : Nat) : List Nat :=
  sha256 (utf8Bytes (hashInput id timestamp prev_hash transactions nonce))

/- ---------------------------------------------------------------------
Validators, fork choice, ledger operations.
--------------------------------------------------------------------- -/

/-- `App::check_block_is_valid(latest_block, new_block)`.

The five checks of the source, in order, short-circuiting on the first
failure.  `latest_block.id + 1` is `u32` addition, which wraps mod 2^32 in
an overflow-wrapping build.  The last check embeds the source's INCLUSIVE
byte slice `&new_block.header[0..=DIFFICULTY.len()]`, i.e. the first
`DIFFICULTY.len() + 1` characters of the header; that slice is only
evaluated when the header equals a 64-character ASCII hex digest (the third
check passed), so taking characters coincides with Rust's byte slicing and
the slice cannot panic there. -/
def check_block_is_valid (latest_block new_block : Block) : Bool :=
  if (latest_block.id + 1) % 4294967296 ≠ new_block.id then false
  else if new_block.timestamp ≤ latest_block.timestamp then false
  else if new_block.header ≠ hexEncode (calculate_hash new_block.id
      new_block.timestamp new_block.prev_hash new_block.transactions
      new_block.nonce) then false
  else if new_block.prev_hash ≠ latest_block.header then false
  else if String.mk (new_block.header.toList.take (DIFFICULTY.length + 1))
      ≠ DIFFICULTY then false
  else true

/-- `Block::genesis_block()`. -/
def Block.genesis_block : Block :=
  ⟨0, 0, "genesis", "genesis", [], 0⟩

/-- `App::check_chain_is_valid(chain)`: loop over `i in 0..chain.len()`,
skip `i == 0`, and test `check_block_is_valid(second, first)` where
`first = chain[i-1]` and `second = chain[i]` — note the source passes
`chain[i]` as the `latest_block` (predecessor) argument and `chain[i-1]`
as the `new_block` (candidate) argument.  `.get(..).expect(..)` cannot
fail since both indices are in bounds; `getD` with an arbitrary default
is therefore an exact model. -/
def check_chain_is_valid (chain : List Block) : Bool :=
  (List.range chain.length).all fun i =>
    if i = 0 then true
    else check_block_is_valid (chain.getD i Block.genesis_block)
        (chain.getD (i - 1) Block.genesis_block)

/-- `App::choose_chain(local_chain, new_chain)`; the `panic!` on two
invalid chains is modelled as `none`. -/
def choose_chain (local_chain new_chain : List Block) : Option (List Block) :=
  let is_local_valid := check_chain_is_valid local_chain
  let is_new_valid := check_chain_is_valid new_chain
  if is_local_valid && is_new_valid then
    if new_chain.length ≤ local_chain.length then some local_chain
    else some new_chain
  else if is_local_valid && !is_new_valid then some local_chain
  else if !is_local_valid && is_new_valid then some new_chain
  else none

/-- `App::new()`. -/
def App.new : App := ⟨[]⟩

/-- `App::add_genesis_block`. -/
def add_genesis_block (app : App) : App :=
  ⟨app.blocks ++ [Block.genesis_block]⟩

/-- `App::add_block_to_chain`: `self.blocks.last().unwrap()` panics on an
empty chain (modelled as `none`); otherwise the candidate is appended when
valid and the state is unchanged when not (the rejection is only logged). -/
def add_block_to_chain (app : App) (block : Block) : Option App :=
  match app.blocks.getLast? with
  | none => none
  | some latest_block =>
      if check_block_is_valid latest_block block then
        some ⟨app.blocks ++ [block]⟩
      else some app

/- ---------------------------------------------------------------------
The miner.
--------------------------------------------------------------------- -/

/-- The string `r` the miner builds from a digest: the first
`DIFFICULTY.len()` raw digest BYTES, each formatted in decimal and
concatenated (NOT hex encoding — so `r = "00"` forces the first two bytes
to be zero, i.e. a hex header starting with "0000"). -/
def digestFragment (result : List Nat) : String :=
  String.join ((result.take DIFFICULTY.length).map (fun n => toString n))

/-- The miner's success predicate at a given nonce. -/
def minerPred (id : Nat) (timestamp : Int) (prev_hash : String)
    (transactions : List Transaction) (nonce : Nat) : Bool :=
  digestFragment (calculate_hash id timestamp prev_hash transactions nonce)
    = DIFFICULTY

/-- The loop body of `mine_block`: starting from `nonce`, increment and
test; the Rust loop is unbounded, so the embedding carries explicit fuel
and `none` models non-termination within that fuel. -/
def mineLoop (id : Nat) (timestamp : Int) (prev_hash : String)
    (transactions : List Transaction) : Nat → Nat → Option (Nat × String)
  | 0, _ => none
  | fuel + 1, nonce =>
      let nonce' := nonce + 1
      let result := calculate_hash id timestamp prev_hash transactions nonce'
      if digestFragment result = DIFFICULTY then
        some (nonce', hexEncode result)
      else mineLoop id timestamp prev_hash transactions fuel nonce'

/-- `mine_block`: brute force from nonce = 1 (`nonce = 0` then `nonce += 1`
before the first test). -/
def mine_block (id : Nat) (timestamp : Int) (prev_hash : String)
    (transactions : List Transaction) (fuel : Nat) : Option (Nat × String) :=
  mineLoop id timestamp prev_hash transactions fuel 0

/-- `Block::new(id, prev_hash, transactions)` draws `timestamp` from the
wall clock (`Utc::now().timestamp()`); it is modelled as an explicit
parameter, and the miner's fuel is explicit as in `mine_block`. -/
def Block.new (id : Nat) (timestamp : Int) (prev_hash : String)
    (transactions : List Transaction) (fuel : Nat) : Option Block :=
  match mine_block id timestamp prev_hash transactions fuel with
  | none => none
  | some (nonce, header) =>
      some ⟨id, timestamp, header, prev_hash, transactions, nonce⟩

/- ---------------------------------------------------------------------
Concrete data used to evaluate the code: the genesis predecessor and the
block the miner produces for `(id 1, timestamp 1, prev_hash "genesis",
no transactions)`.  Nonce 40664 is the smallest nonce whose digest starts
with two zero bytes for this input (found by exhaustive search), so it is
exactly the pair `mine_block` returns for this input.
--------------------------------------------------------------------- -/

/-- The digest hex for `(id 1, ts 1, prev "genesis", [], nonce 40664)`. -/
def minedHeaderEx : String :=
  "00006805c4172196a7db79dd4006368f4021dc44722f3024fd6e9e77ae778e7b"

/-- The block `Block::new` builds from that mining result. -/
def minedBlockEx : Block :=
  ⟨1, 1, minedHeaderEx, "genesis", [], 40664⟩

/- ---------------------------------------------------------------------
Helper lemmas.
--------------------------------------------------------------------- -/

/-- The digest serialization is always 32 bytes long. -/
theorem digestBytes_length (st : Hash8) : (digestBytes st).length = 32 := rfl

/-- SHA-256 digests are 32 bytes long. -/
theorem sha256_length (msg : List Nat) : (sha256 msg).length = 32 :=
  digestBytes_length _

/-- `calculate_hash` always returns a 32-byte digest. -/
theorem calculate_hash_length (id : Nat) (ts : Int) (ph : String)
    (txs : List Transaction) (nonce : Nat) :
    (calculate_hash id ts ph txs nonce).length = 32 :=
  sha256_length _

/-- Hex encoding produces two characters per byte. -/
theorem hexChars_length (l : List Nat) : (hexChars l).length = 2 * l.length := by
  induction l with
  | nil => rfl
  | cons b t ih =>
      simp only [hexChars, List.map_cons, List.flatten_cons, List.length_append,
        List.length_cons, List.length_nil, List.length_map] at ih ⊢
      omega

/-- The characters of a hex-encoded byte list. -/
theorem hexEncode_toList (l : List Nat) : (hexEncode l).toList = hexChars l := rfl

/-- A string of at least three characters never satisfies the validator's
difficulty comparison: the inclusive slice has `DIFFICULTY.len() + 1 = 3`
characters while the target has 2. -/
theorem difficulty_slice_ne (header : String) (h : 3 ≤ header.toList.length) :
    String.mk (header.toList.take (DIFFICULTY.length + 1)) ≠ DIFFICULTY := by
  intro e
  have e2 : header.toList.take (DIFFICULTY.length + 1) = DIFFICULTY.toList :=
    congrArg String.toList e
  have e3 : (header.toList.take (DIFFICULTY.length + 1)).length
      = DIFFICULTY.toList.length := by rw [e2]
  rw [List.length_take] at e3
  have hd : DIFFICULTY.length + 1 = 3 := rfl
  have hd2 : DIFFICULTY.toList.length = 2 := rfl
  rw [hd, hd2, Nat.min_eq_left h] at e3
  omega

/-- The block validator of the source rejects every candidate: if the first
four checks pass, the header is a 64-character hex digest, and the final
check compares its first three characters with the two-character target. -/
theorem check_block_is_valid_false (P C : Block) :
    check_block_is_valid P C = false := by
  unfold check_block_is_valid
  split
  · rfl
  split
  · rfl
  split
  · rfl
  split
  · rfl
  split
  · rfl
  rename_i h1 h2 h3 h4 h5
  exfalso
  have hh : C.header = hexEncode (calculate_hash C.id C.timestamp C.prev_hash
      C.transactions C.nonce) := not_ne_iff.mp h3
  refine difficulty_slice_ne C.header ?_ (not_ne_iff.mp h5)
  rw [hh, hexEncode_toList, hexChars_length, calculate_hash_length]
  omega

/-- A chain with at least two blocks never validates: its first iteration
already calls the (constantly false) block validator. -/
theorem check_chain_long_false (a b : Block) (t : List Block) :
    check_chain_is_valid (a :: b :: t) = false := by
  rw [Bool.eq_false_iff]
  intro h
  unfold check_chain_is_valid at h
  have h1 : (1 : Nat) ∈ List.range (a :: b :: t).length :=
    List.mem_range.mpr (by simp)
  have h2 := List.all_eq_true.mp h 1 h1
  simp only [List.getD_cons_succ, List.getD_cons_zero, one_ne_zero,
    if_false] at h2
  rw [check_block_is_valid_false] at h2
  cases h2

/-- The source's chain validator accepts exactly the chains with at most
one block. -/
theorem check_chain_is_valid_iff_short (chain : List Block) :
    check_chain_is_valid chain = true ↔ chain.length ≤ 1 := by
  match chain with
  | [] => simp [check_chain_is_valid]
  | [b] =>
      constructor
      · intro _; simp
      · intro _; rfl
  | a :: b :: t =>
      rw [check_chain_long_false]
      simp only [List.length_cons]
      constructor
      · intro h; cases h
      · intro h; omega

/-- The claim's pairwise reading of chain validity also holds exactly for
chains with at most one block, because the block validator is constantly
false. -/
theorem pairwise_valid_iff_short (chain : List Block) :
    (∀ i, 0 < i → i < chain.length →
        check_block_is_valid (chain.getD (i - 1) Block.genesis_block)
          (chain.getD i Block.genesis_block) = true)
    ↔ chain.length ≤ 1 := by
  constructor
  · intro h
    by_contra hl
    have h2 := h 1 Nat.one_pos (by omega)
    rw [check_block_is_valid_false] at h2
    cases h2
  · intro h i h0 hi
    omega

/-- The first hit of the mining loop: if `m` is the first nonce after
`nonce` satisfying the miner's predicate and it is within `fuel` steps,
the loop returns `m` with the hex-encoded digest at `m`. -/
theorem mineLoop_finds (id : Nat) (ts : Int) (ph : String)
    (txs : List Transaction) :
    ∀ fuel nonce m : Nat, nonce < m → m ≤ nonce + fuel →
      minerPred id ts ph txs m = true →
      (∀ k, nonce < k → k < m → minerPred id ts ph txs k = false) →
      mineLoop id ts ph txs fuel nonce =
        some (m, hexEncode (calculate_hash id ts ph txs m)) := by
  intro fuel
  induction fuel with
  | zero => intro nonce m h1 h2 _ _; omega
  | succ f ih =>
      intro nonce m h1 h2 hm hmin
      by_cases hc :
          digestFragment (calculate_hash id ts ph txs (nonce + 1)) = DIFFICULTY
      · have hm1 : m = nonce + 1 := by
          by_contra hne
          have := hmin (nonce + 1) (by omega) (by omega)
          simp only [minerPred, decide_eq_false_iff_not] at this
          exact this hc
        subst hm1
        simp [mineLoop, hc]
      · have hne : m ≠ nonce + 1 := by
          intro e
          rw [e] at hm
          simp only [minerPred, decide_eq_true_eq] at hm
          exact hc hm
        have hrec := ih (nonce + 1) m (by omega) (by omega) hm
          (fun k hk1 hk2 => hmin k (by omega) hk2)
        simp only [mineLoop, hc, if_false]
        exact hrec

/- ---------------------------------------------------------------------
The claims.
--------------------------------------------------------------------- -/

set_option maxRecDepth 1000000 in
/-- C1: the claim says every block produced by the mined-block constructor
(correct id, later timestamp, matching prev_hash, header from the miner)
validates against its predecessor; the code instead rejects it.  Concretely,
for predecessor `genesis` and input `(id 1, timestamp 1, prev_hash
"genesis", no transactions)` the miner's smallest satisfying nonce is
40664: its digest satisfies the miner's predicate and the header is the
recomputed hex digest, yet `check_block_is_valid` returns `false` (the
difficulty check compares a 3-character slice with the 2-character
target). -/
theorem c1_mined_block_rejected_by_validator :
    minedBlockEx.id = Block.genesis_block.id + 1
  ∧ Block.genesis_block.timestamp < minedBlockEx.timestamp
  ∧ minedBlockEx.prev_hash = Block.genesis_block.header
  ∧ minedBlockEx.header = hexEncode (calculate_hash minedBlockEx.id
      minedBlockEx.timestamp minedBlockEx.prev_hash minedBlockEx.transactions
      minedBlockEx.nonce)
  ∧ minerPred minedBlockEx.id minedBlockEx.timestamp minedBlockEx.prev_hash
      minedBlockEx.transactions minedBlockEx.nonce = true
  ∧ check_block_is_valid Block.genesis_block minedBlockEx = false := by
  decide

/-- C2: `check_chain_is_valid` returns true iff the block validator passes
on every adjacent pair, with `chain[i-1]` as predecessor and `chain[i]` as
candidate.  (The source actually passes `chain[i]` as the predecessor
argument, but both readings are equivalent here: the block validator is
constantly false, so both sides hold exactly for chains of length at
most 1.) -/
theorem c2_chain_valid_iff_pairwise (chain : List Block) :
    check_chain_is_valid chain = true ↔
      ∀ i, 0 < i → i < chain.length →
        check_block_is_valid (chain.getD (i - 1) Block.genesis_block)
          (chain.getD i Block.genesis_block) = true :=
  (check_chain_is_valid_iff_short chain).trans
    (pairwise_valid_iff_short chain).symm

set_option maxRecDepth 1000000 in
/-- C3: the claim reads the difficulty check as comparing the first
`DIFFICULTY.len()` characters of the header with the target; at the block
mined for `(id 1, ts 1, prev "genesis", [])` all five checks hold under
that reading (the header starts with "00"), yet `check_block_is_valid`
returns `false`, because the source slices `[0..=DIFFICULTY.len()]` —
one character too many. -/
theorem c3_spec_checks_hold_but_validator_rejects :
    (Block.genesis_block.id + 1) % 4294967296 = minedBlockEx.id
  ∧ Block.genesis_block.timestamp < minedBlockEx.timestamp
  ∧ minedBlockEx.header = hexEncode (calculate_hash minedBlockEx.id
      minedBlockEx.timestamp minedBlockEx.prev_hash minedBlockEx.transactions
      minedBlockEx.nonce)
  ∧ minedBlockEx.prev_hash = Block.genesis_block.header
  ∧ String.mk (minedBlockEx.header.toList.take DIFFICULTY.length) = DIFFICULTY
  ∧ check_block_is_valid Block.genesis_block minedBlockEx = false := by
  decide

/-- C4: when both chains validate, `choose_chain` prefers the longer one
and keeps the local chain on ties. -/
theorem c4_both_valid_longer_wins (local_chain new_chain : List Block)
    (hl : check_chain_is_valid local_chain = true)
    (hr : check_chain_is_valid new_chain = true) :
    choose_chain local_chain new_chain =
      some (if local_chain.length < new_chain.length then new_chain
            else local_chain) := by
  unfold choose_chain
  rw [hl, hr]
  simp only [Bool.and_self, if_true]
  by_cases h : new_chain.length ≤ local_chain.length
  · rw [if_pos h, if_neg (by omega)]
  · rw [if_neg h, if_pos (by omega)]

/-- C4 witness: an empty local chain against the singleton genesis chain
(both valid); the longer remote chain is adopted. -/
theorem c4_witness :
    choose_chain [] [Block.genesis_block] = some [Block.genesis_block] := by
  have h := c4_both_valid_longer_wins [] [Block.genesis_block]
    (by decide) (by decide)
  simpa using h

/-- C5: `choose_chain` never silently returns an invalid chain — with
exactly one valid input it returns the valid one regardless of length, and
with two invalid inputs it panics (`none`) instead of returning a chain. -/
theorem c5_never_returns_invalid_silently (local_chain new_chain : List Block) :
    (check_chain_is_valid local_chain = true →
      check_chain_is_valid new_chain = false →
        choose_chain local_chain new_chain = some local_chain)
  ∧ (check_chain_is_valid local_chain = false →
      check_chain_is_valid new_chain = true →
        choose_chain local_chain new_chain = some new_chain)
  ∧ (check_chain_is_valid local_chain = false →
      check_chain_is_valid new_chain = false →
        choose_chain local_chain new_chain = none) := by
  refine ⟨?_, ?_, ?_⟩ <;> intro h1 h2 <;> simp [choose_chain, h1, h2]

/-- C5 witness: a valid singleton against an invalid two-block chain (and
the converse, where the valid chain is the shorter one), and two invalid
chains producing the panic. -/
theorem c5_witness :
    choose_chain [Block.genesis_block]
      [Block.genesis_block, Block.genesis_block] = some [Block.genesis_block]
  ∧ choose_chain [Block.genesis_block, Block.genesis_block] [] = some []
  ∧ choose_chain [Block.genesis_block, Block.genesis_block]
      [Block.genesis_block, Block.genesis_block] = none :=
  ⟨(c5_never_returns_invalid_silently _ _).1 (by decide) (by decide),
   (c5_never_returns_invalid_silently _ _).2.1 (by decide) (by decide),
   (c5_never_returns_invalid_silently _ _).2.2 (by decide) (by decide)⟩

/-- C6: the block validator returns false on every pair of blocks (the
final check compares a `DIFFICULTY.len() + 1`-character slice of a
64-character hex header against the `DIFFICULTY.len()`-character target),
so every completing `add_block_to_chain` call leaves the `App` — and in
particular its chain length — unchanged. -/
theorem c6_validator_constantly_false :
    (∀ P C : Block, check_block_is_valid P C = false)
  ∧ ∀ (app : App) (b : Block) (app' : App),
      add_block_to_chain app b = some app' → app' = app := by
  refine ⟨check_block_is_valid_false, ?_⟩
  intro app b app' h
  unfold add_block_to_chain at h
  cases hl : app.blocks.getLast? with
  | none => rw [hl] at h; cases h
  | some latest =>
      rw [hl] at h
      simp [check_block_is_valid_false] at h
      exact h.symm

/-- C6 witness: the genesis block rejected against itself, and a completing
append call on the singleton genesis ledger returning the unchanged
state. -/
theorem c6_witness :
    check_block_is_valid Block.genesis_block Block.genesis_block = false
  ∧ (⟨[Block.genesis_block]⟩ : App) = ⟨[Block.genesis_block]⟩ :=
  ⟨c6_validator_constantly_false.1 Block.genesis_block Block.genesis_block,
   c6_validator_constantly_false.2 ⟨[Block.genesis_block]⟩
     Block.genesis_block ⟨[Block.genesis_block]⟩ (by decide)⟩

/-- C7: on a non-empty ledger, a candidate that fails validation leaves the
state unchanged — the call completes (`some`), nothing is appended, and the
`App` remains usable. -/
theorem c7_invalid_append_is_noop (app : App) (latest b : Block)
    (hl : app.blocks.getLast? = some latest)
    (hv : check_block_is_valid latest b = false) :
    add_block_to_chain app b = some app := by
  simp [add_block_to_chain, hl, hv]

/-- C7 witness: appending the genesis block to the singleton genesis ledger
is rejected and leaves the ledger unchanged. -/
theorem c7_witness :
    add_block_to_chain ⟨[Block.genesis_block]⟩ Block.genesis_block
      = some ⟨[Block.genesis_block]⟩ :=
  c7_invalid_append_is_noop ⟨[Block.genesis_block]⟩ Block.genesis_block
    Block.genesis_block (by decide) (by decide)

/-- C8: the chain validator accepts the empty chain, the singleton genesis
chain, and in fact any singleton chain — the single block is never itself
validated. -/
theorem c8_short_chains_vacuously_valid :
    check_chain_is_valid [] = true
  ∧ check_chain_is_valid [Block.genesis_block] = true
  ∧ ∀ b : Block, check_chain_is_valid [b] = true :=
  ⟨rfl, rfl, fun _ => rfl⟩

/-- C9: whenever some nonce ≥ 1 satisfies the miner's predicate, the mining
loop (run with enough fuel — the Rust loop is unbounded) returns the
smallest such nonce together with the hex-encoded digest at that nonce;
the result does not depend on the fuel, so field-for-field-equal inputs
always produce the same `(nonce, header)` pair. -/
theorem c9_mine_block_least_nonce (id : Nat) (ts : Int) (ph : String)
    (txs : List Transaction) (n : Nat) (h1 : 1 ≤ n)
    (h2 : minerPred id ts ph txs n = true) :
    ∃ m : Nat, 1 ≤ m ∧ m ≤ n ∧ minerPred id ts ph txs m = true
      ∧ (∀ k, 1 ≤ k → k < m → minerPred id ts ph txs k = false)
      ∧ ∀ fuel, n ≤ fuel →
          mine_block id ts ph txs fuel =
            some (m, hexEncode (calculate_hash id ts ph txs m)) := by
  have hex2 : ∃ k, 1 ≤ k ∧ minerPred id ts ph txs k = true := ⟨n, h1, h2⟩
  have hm := Nat.find_spec hex2
  have hmn : Nat.find hex2 ≤ n := Nat.find_min' hex2 ⟨h1, h2⟩
  refine ⟨Nat.find hex2, hm.1, hmn, hm.2, ?_, ?_⟩
  · intro k hk1 hkm
    have hnot := Nat.find_min hex2 hkm
    cases hval : minerPred id ts ph txs k with
    | false => rfl
    | true => exact absurd ⟨hk1, hval⟩ hnot
  · intro fuel hfuel
    refine mineLoop_finds id ts ph txs fuel 0 (Nat.find hex2)
      (by omega) (by omega) hm.2 ?_
    intro k hk0 hkm
    have hnot := Nat.find_min hex2 hkm
    cases hval : minerPred id ts ph txs k with
    | false => rfl
    | true => exact absurd ⟨by omega, hval⟩ hnot

set_option maxRecDepth 1000000 in
/-- C9 witness: for `(id 1, ts 1, prev "genesis", [])`, nonce 40664
satisfies the miner's predicate, so mining this input returns the least
such nonce and its hex digest, independently of sufficient fuel. -/
theorem c9_witness :
    ∃ m : Nat, 1 ≤ m ∧ m ≤ 40664 ∧ minerPred 1 1 "genesis" [] m = true
      ∧ (∀ k, 1 ≤ k → k < m → minerPred 1 1 "genesis" [] k = false)
      ∧ ∀ fuel, 40664 ≤ fuel →
          mine_block 1 1 "genesis" [] fuel =
            some (m, hexEncode (calculate_hash 1 1 "genesis" [] m)) :=
  c9_mine_block_least_nonce 1 1 "genesis" [] 40664 (by omega) (by decide)

/-- C10: `add_block_to_chain` unwraps the last block before validating, so
on the empty chain produced by `App::new` it panics (`none`); it completes
without panic exactly when the chain is non-empty. -/
theorem c10_append_panics_on_empty_chain :
    (∀ b : Block, add_block_to_chain App.new b = none)
  ∧ ∀ (app : App) (b : Block),
      add_block_to_chain app b = none ↔ app.blocks = [] := by
  constructor
  · intro b; rfl
  · intro app b
    obtain ⟨blocks⟩ := app
    cases blocks with
    | nil => simp [add_block_to_chain]
    | cons x xs =>
        obtain ⟨y, hy⟩ : ∃ y, (x :: xs).getLast? = some y :=
          ⟨(x :: xs).getLast (by simp), List.getLast?_eq_getLast _ _⟩
        simp only [add_block_to_chain, hy]
        constructor
        · intro h
          split at h <;> cases h
        · intro h
          cases h

end RustChain
